import Mathlib

set_option maxHeartbeats 1000000

/-!
Shallow embedding of towboot's memory bookkeeping (`mem.rs`) and boot
preparation (`boot.rs`).

Machine integers (`usize`, `u64`) are modelled as `Nat`; the code never
relies on wrap-around for the quantities embedded here.  Platform services
(the UEFI page allocator, file reading, the multiboot header parser, the
host heap allocator) are nondeterministic external collaborators and are
passed in as explicit oracle parameters.  A Rust `panic!`/`todo!`/failed
`assert!`/`unwrap` is modelled as a distinguished `fatal`/`none` outcome.
-/

/-- `mem.rs`: `pub(super) const PAGE_SIZE: usize = 4096;` -/
def PAGE_SIZE : Nat := 4096

/-- `u32::MAX as usize` as it appears in `mem.rs`. -/
def U32_MAX : Nat := 4294967295

/-- The UEFI status values the embedded code distinguishes: `LOAD_ERROR`
is produced by the code itself, every other status (e.g. errors coming out
of `read_file`) is abstracted as `other`. -/
inductive Status where
  | LOAD_ERROR
  | other (code : Nat)
deriving DecidableEq

/-- `config::Quirk` is referenced from `mem.rs` but `config.rs` is not part
of the sources.  Modelled from the spec: the quirk set contains at minimum
"place modules below 200 MiB" (`Quirk::ModulesBelow200Mb`). -/
inductive Quirk where
  | ModulesBelow200Mb
deriving DecidableEq, BEq

/-- `multiboot::information::MemoryType` — the region types the translator
in `mem.rs` produces. -/
inductive MBMemoryType where
  | Available
  | Reserved
  | ACPI
  | NVS
  | Defect
deriving DecidableEq

/-- `multiboot::information::MemoryEntry`: base address, length and region
type, with the accessors `base_address()`, `length()`, `memory_type()`. -/
structure MemoryEntry where
  base_address : Nat
  length : Nat
  memory_type : MBMemoryType
deriving DecidableEq

/-- The two kinds of UEFI `allocate_pages` requests used by the code:
`AllocateType::Address` and `AllocateType::MaxAddress`. -/
inductive AllocateType where
  | address (a : Nat)
  | maxAddress (m : Nat)
deriving DecidableEq

/-- Oracle for `boot_services().allocate_pages(ty, LOADER_DATA, pages)`:
given the request kind and the page count it yields the allocated physical
address, or `none` when the firmware reports failure. -/
def PageAllocator : Type := AllocateType → Nat → Option Nat

/-- `mem.rs` `struct Allocation`: a tracked physical allocation. -/
structure Allocation where
  ptr : Nat
  len : Nat
  pages : Nat
  should_be_at : Option Nat
deriving DecidableEq

/-- `Allocation::calculate_page_count`:
`(size / PAGE_SIZE) + if (size % PAGE_SIZE) == 0 { 0 } else { 1 }`. -/
def calculate_page_count (size : Nat) : Nat :=
  (size / PAGE_SIZE) + (if size % PAGE_SIZE = 0 then 0 else 1)

/-- Mathematical ceiling division `⌈a / b⌉` on naturals, used to state the
spec's `ceil(L/P)`. -/
def ceil_div (a b : Nat) : Nat := (a + b - 1) / b

/-- `Allocation::new_under_4gb`: allocate below a ceiling that is
200 MiB when the `ModulesBelow200Mb` quirk is active and `u32::MAX`
otherwise; failure is mapped to `Status::LOAD_ERROR`. -/
def new_under_4gb (alloc_pages : PageAllocator) (size : Nat) (quirks : List Quirk) :
    Except Status Allocation :=
  match alloc_pages (.maxAddress (if quirks.contains .ModulesBelow200Mb then
      200 * 1024 * 1024
    else
      U32_MAX)) (calculate_page_count size) with
  | some ptr =>
    .ok { ptr := ptr, len := size, pages := calculate_page_count size, should_be_at := none }
  | none => .error .LOAD_ERROR

/-- `Allocation::new_at`: try to allocate pinned at `address`; on failure
fall back to `new_under_4gb(size, &BTreeSet::default())` (an empty quirk
set) and record `should_be_at = Some(address)`. -/
def new_at (alloc_pages : PageAllocator) (address : Nat) (size : Nat) :
    Except Status Allocation :=
  match alloc_pages (.address address) (calculate_page_count size) with
  | some ptr =>
    .ok { ptr := ptr, len := size, pages := calculate_page_count size, should_be_at := none }
  | none =>
    match new_under_4gb alloc_pages size [] with
    | .ok allocation => .ok { allocation with should_be_at := some address }
    | .error e => .error e

/-- The filter predicate of `move_to_where_it_should_be`:
`e.base_address() <= a && e.base_address() + e.length() >= a + self.len`. -/
def entry_contains_range (e : MemoryEntry) (a : Nat) (len : Nat) : Bool :=
  decide (e.base_address ≤ a ∧ a + len ≤ e.base_address + e.length)

/-- Outcome of `Allocation::move_to_where_it_should_be`.  `copied` records
whether the `core::ptr::copy` of the allocation's bytes to the target
address has been executed; `fatal` models a `panic!` or failed `assert!`,
carrying the state of the allocation record at the moment of the abort
(the mutations of `ptr` and `should_be_at` happen only after the checks,
so on every abort the record is unchanged). -/
inductive MoveResult where
  | ok (a : Allocation) (copied : Bool)
  | fatal (a : Allocation) (copied : Bool)
deriving DecidableEq

/-- Whether the byte copy was performed. -/
def MoveResult.didCopy : MoveResult → Bool
  | .ok _ c => c
  | .fatal _ c => c

/-- Whether the operation aborted fatally. -/
def MoveResult.isFatal : MoveResult → Bool
  | .ok _ _ => false
  | .fatal _ _ => true

/-- `Allocation::move_to_where_it_should_be`: when `should_be_at` is set,
take the entries of the memory map fully containing the target range; if
there is none, panic; if the first one is not `Available`, panic
(`would overwrite`); otherwise perform the copy, then `assert!` that no
second entry matches (panicking after the copy if one does), and finally
update `ptr` and clear `should_be_at`. -/
def move_to_where_it_should_be (alloc : Allocation) (memory_map : List MemoryEntry) :
    MoveResult :=
  match alloc.should_be_at with
  | none => .ok alloc false
  | some a =>
    match memory_map.filter (fun e => entry_contains_range e a alloc.len) with
    | [] => .fatal alloc false
    | e :: rest =>
      match e.memory_type with
      | .Available =>
        match rest with
        | [] => .ok { alloc with ptr := a, should_be_at := none } true
        | _ :: _ => .fatal alloc true
      | _ => .fatal alloc false

/-- `mem.rs` `struct MultibootAllocator`: its `BTreeMap<PAddr, Layout>` is
modelled as a map from address to the stored layout's size. -/
structure MultibootAllocator where
  allocations : Nat → Option Nat

/-- `MultibootAllocator::new`. -/
def MultibootAllocator.new : MultibootAllocator := { allocations := fun _ => none }

/-- `MultibootAllocator::paddr_to_slice`: look the address up in the map
and return a view whose length is the recorded layout size (the slice is
modelled by its length); the probe length argument is ignored
(`_length`). -/
def MultibootAllocator.paddr_to_slice (m : MultibootAllocator) (addr : Nat)
    (_length : Nat) : Option Nat :=
  m.allocations addr

/-- `MultibootAllocator::allocate`: the host heap hands back `ptr` (oracle
argument); addresses at or above `u32::MAX` are rejected, a null pointer is
a failure, otherwise `ptr -> layout` is inserted and the address returned. -/
def MultibootAllocator.allocate (m : MultibootAllocator) (ptr : Nat) (length : Nat) :
    Option (MultibootAllocator × Nat) :=
  if U32_MAX ≤ ptr then
    none
  else if ptr = 0 then
    none
  else
    some ({ allocations := fun a => if a = ptr then some length else m.allocations a }, ptr)

/-- `MultibootAllocator::deallocate`: address 0 is a no-op; removing an
address not present in the map is a `panic!` (modelled as `none`);
otherwise the entry is removed and the memory freed. -/
def MultibootAllocator.deallocate (m : MultibootAllocator) (addr : Nat) :
    Option MultibootAllocator :=
  if addr = 0 then
    some m
  else
    match m.allocations addr with
    | none => none
    | some _ =>
      some { allocations := fun a => if a = addr then none else m.allocations a }

/-- The allocator state after a successful `allocate` (identity when the
allocation failed). -/
def afterAlloc (m : MultibootAllocator) (ptr : Nat) (length : Nat) : MultibootAllocator :=
  match m.allocate ptr length with
  | some (m2, _) => m2
  | none => m

/-- The allocator state after a successful `deallocate` (identity when it
panicked). -/
def afterDealloc (m : MultibootAllocator) (addr : Nat) : MultibootAllocator :=
  (m.deallocate addr).getD m

/-- The UEFI memory types distinguished by the `match` in
`prepare_information`; every other value falls into `other`. -/
inductive UefiMemoryType where
  | LOADER_CODE
  | LOADER_DATA
  | BOOT_SERVICES_CODE
  | BOOT_SERVICES_DATA
  | RUNTIME_SERVICES_CODE
  | RUNTIME_SERVICES_DATA
  | CONVENTIONAL
  | UNUSABLE
  | ACPI_RECLAIM
  | ACPI_NON_VOLATILE
  | MMIO_REGION
  | MMIO_PORT_SPACE
  | PAL_CODE
  | PERSISTENT_MEMORY
  | other (code : Nat)
deriving DecidableEq

/-- A UEFI `MemoryDescriptor` as consumed by `prepare_information`:
physical start, page count and type. -/
structure MemoryDescriptor where
  phys_start : Nat
  page_count : Nat
  ty : UefiMemoryType
deriving DecidableEq

/-- The region-type classification `match` of `prepare_information`. -/
def translate_memory_type : UefiMemoryType → MBMemoryType
  | .LOADER_CODE | .LOADER_DATA | .BOOT_SERVICES_CODE | .BOOT_SERVICES_DATA =>
    .Available
  | .RUNTIME_SERVICES_CODE | .RUNTIME_SERVICES_DATA => .Reserved
  | .CONVENTIONAL => .Available
  | .UNUSABLE => .Defect
  | .ACPI_RECLAIM => .ACPI
  | .ACPI_NON_VOLATILE => .NVS
  | .MMIO_REGION | .MMIO_PORT_SPACE | .PAL_CODE => .Reserved
  | .PERSISTENT_MEMORY => .Available
  | .other _ => .Reserved

/-- `MemoryEntry::new(descriptor.phys_start, descriptor.page_count * PAGE_SIZE, <translated type>)`. -/
def descriptor_to_entry (d : MemoryDescriptor) : MemoryEntry :=
  { base_address := d.phys_start
    length := d.page_count * PAGE_SIZE
    memory_type := translate_memory_type d.ty }

/-- One iteration of the merge loop of `prepare_information`, with the
output buffer kept in reverse order (head = `current_entry`): join the
incoming entry into the current one when the types are equal and the base
is contiguous, otherwise start a new entry. -/
def merge_step (acc : List MemoryEntry) (next : MemoryEntry) : List MemoryEntry :=
  match acc with
  | [] => [next]
  | cur :: rest =>
    if next.memory_type = cur.memory_type ∧
        next.base_address = cur.base_address + cur.length then
      { base_address := cur.base_address
        length := cur.length + next.length
        memory_type := cur.memory_type } :: rest
    else
      next :: cur :: rest

/-- The populated prefix `&mb_mmap_buf[0..count]` produced by the merge
pass of `prepare_information` over the descriptor iterator. -/
def merge_entries (ds : List MemoryDescriptor) : List MemoryEntry :=
  (ds.foldl (fun acc d => merge_step acc (descriptor_to_entry d)) []).reverse

/-- The `(lower, upper)` memory bounds computed at the end of
`prepare_information`: lower is the constant `640`, upper is
`length() / 1024` of the first merged entry whose base address is
`1024 * 1024`; the `.unwrap()` on a missing entry is a panic, modelled as
`none`. -/
def memory_bounds (ds : List MemoryDescriptor) : Option (Nat × Nat) :=
  ((merge_entries ds).find? (fun e => e.base_address == 1024 * 1024)).map
    (fun e => (640, e.length / 1024))

/-- The parsed multiboot address fields used by `prepare_entry`
(`multiboot1::Addresses::Multiboot`). -/
structure MultibootAddresses where
  load_address : Nat
  load_end_address : Nat
  bss_end_address : Nat
  load_offset : Nat
  entry_address : Nat
deriving DecidableEq

/-- `multiboot1::Addresses`: protocol-native addresses or the ELF scheme. -/
inductive Addresses where
  | Multiboot (addr : MultibootAddresses)
  | Elf
deriving DecidableEq

/-- `multiboot1::Metadata` (the part `prepare_entry` consumes). -/
structure Metadata where
  addresses : Addresses
deriving DecidableEq

/-- `config::Entry` is defined in the missing `config.rs`.  Modelled from
the spec: a Boot Entry Descriptor holds the kernel image path, an optional
ordered list of module image paths, an optional display name and the quirk
set. -/
structure Entry where
  image : String
  name : Option String
  modules : Option (List String)
  quirks : List Quirk

/-- `kernel_length` as computed in `prepare_entry`:
`bss_end - load_address` when a bss end is present (nonzero), else
`load_end - load_address`. -/
def kernel_length_of (addr : MultibootAddresses) : Nat :=
  if addr.bss_end_address = 0 then
    addr.load_end_address - addr.load_address
  else
    addr.bss_end_address - addr.load_address

/-- `let kernel_pages = (kernel_length / 4096) + 1;` from `prepare_entry`. -/
def kernel_pages_of (kernel_length : Nat) : Nat :=
  kernel_length / 4096 + 1

/-- The segment copy of `prepare_entry`: the destination has
`kernel_length` bytes; byte `i` comes from the iterator
`file.skip(load_offset).take(load_end - load_address).chain(repeat(0))`,
i.e. it is `file[load_offset + i]` while `i` is below the take limit and
the file still has that byte, and `0` afterwards. -/
def copy_segment (kernel_vec : List Nat) (addr : MultibootAddresses) : List Nat :=
  (List.range (kernel_length_of addr)).map (fun i =>
    if i < addr.load_end_address - addr.load_address ∧
        addr.load_offset + i < kernel_vec.length then
      kernel_vec.getD (addr.load_offset + i) 0
    else
      0)

/-- Page-level effects performed by `prepare_entry` through the boot
services, recorded so that leak/release behaviour is observable. -/
inductive BootEvent where
  | allocPages (ptr : Nat) (pages : Nat)
  | freePages (ptr : Nat) (pages : Nat)
deriving DecidableEq

/-- `boot.rs` `struct PreparedEntry` (the fields built by
`prepare_entry`; the borrowed config entry is omitted). -/
structure PreparedEntry where
  kernel_ptr : Nat
  kernel_pages : Nat
  metadata : Metadata
  modules_vec : List (List Nat)
  kernel_buf : List Nat
deriving DecidableEq

/-- Result of `prepare_entry`: a prepared entry, a returned `Status` error,
or a fatal abort (`todo!`/panic). -/
inductive PrepareResult where
  | ok (pe : PreparedEntry)
  | err (s : Status)
  | fatal
deriving DecidableEq

/-- The module loading loop of `prepare_entry`:
`entry.modules.iter().flat_map(identity).map(read_file).collect::<Result<Vec<_>, _>>()`
— load each module in declared order, short-circuiting on the first
failure. -/
def load_modules (read_file : String → Except Status (List Nat))
    (modules : List String) : Except Status (List (List Nat)) :=
  modules.mapM read_file

/-- `prepare_entry` from `boot.rs`, with the external collaborators as
oracles: `read_file` (the image source), `parse` (the multiboot1 header
parser, its error already collapsed to the `LOAD_ERROR` mapping of the
code), and `alloc_pages` (UEFI page allocation).  Returns the result
together with the list of page-level allocation/free events performed. -/
def prepare_entry (read_file : String → Except Status (List Nat))
    (parse : List Nat → Option Metadata)
    (alloc_pages : PageAllocator)
    (entry : Entry) : PrepareResult × List BootEvent :=
  match read_file entry.image with
  | .error e => (.err e, [])
  | .ok kernel_vec =>
    match parse kernel_vec with
    | none => (.err .LOAD_ERROR, [])
    | some metadata =>
      match metadata.addresses with
      | .Elf => (.fatal, [])
      | .Multiboot addr =>
        match alloc_pages (.address addr.load_address)
            (kernel_pages_of (kernel_length_of addr)) with
        | none => (.err .LOAD_ERROR, [])
        | some kernel_ptr =>
          match load_modules read_file (entry.modules.getD []) with
          | .error e =>
            (.err e, [.allocPages kernel_ptr (kernel_pages_of (kernel_length_of addr))])
          | .ok modules_vec =>
            (.ok { kernel_ptr := kernel_ptr,
                   kernel_pages := kernel_pages_of (kernel_length_of addr),
                   metadata := metadata, modules_vec := modules_vec,
                   kernel_buf := copy_segment kernel_vec addr },
             [.allocPages kernel_ptr (kernel_pages_of (kernel_length_of addr))])

/-! ## Theorems -/

/-- Shape of a successful `new_under_4gb` result: the tracked record has the
requested length, `calculate_page_count` pages and no pending target. -/
theorem new_under_4gb_ok_shape (ap : PageAllocator) (sz : Nat) (qs : List Quirk)
    (a : Allocation) (h : new_under_4gb ap sz qs = .ok a) :
    a.len = sz ∧ a.pages = calculate_page_count sz ∧ a.should_be_at = none := by
  unfold new_under_4gb at h
  split at h
  all_goals cases h
  all_goals exact ⟨rfl, rfl, rfl⟩

/-- Shape of a successful `new_at` result: the tracked record has the
requested length and `calculate_page_count` pages. -/
theorem new_at_ok_shape (ap : PageAllocator) (A sz : Nat)
    (a : Allocation) (h : new_at ap A sz = .ok a) :
    a.len = sz ∧ a.pages = calculate_page_count sz := by
  unfold new_at at h
  split at h
  · cases h
    exact ⟨rfl, rfl⟩
  · rename_i hpin
    split at h
    · rename_i a2 h2
      cases h
      have := new_under_4gb_ok_shape ap sz [] a2 h2
      exact ⟨this.1, this.2.1⟩
    · cases h

/-- C9 counterexample: the kernel placement in `prepare_entry` computes the
page count as `kernel_length / 4096 + 1`; for a kernel length of exactly one
page (4096 bytes) this requests 2 pages while `ceil(4096 / PAGE_SIZE)` is 1,
so the claimed equality with the ceiling fails for the page count used by
the kernel placement. -/
theorem c9_page_count_counterexample :
    kernel_pages_of 4096 ≠ ceil_div 4096 PAGE_SIZE := by decide

/-- C9 (amended): `calculate_page_count L = ceil(L / PAGE_SIZE)` for every
byte length `L` (in particular no extra page when `L` is divisible by the
page size), and every tracked allocation produced by `new_at` or
`new_under_4gb` has `pages = calculate_page_count len`; the page count used
by the kernel placement in `prepare_entry`, however, is
`L / 4096 + 1`, which exceeds the ceiling by one exactly when `L` is a
multiple of the page size. -/
theorem c9_page_count_amended (L A sz : Nat) (ap : PageAllocator) (qs : List Quirk)
    (a a2 : Allocation)
    (h1 : new_at ap A sz = .ok a) (h2 : new_under_4gb ap sz qs = .ok a2) :
    calculate_page_count L = ceil_div L PAGE_SIZE ∧
    a.pages = calculate_page_count a.len ∧
    a2.pages = calculate_page_count a2.len ∧
    kernel_pages_of L =
      (if L % PAGE_SIZE = 0 then ceil_div L PAGE_SIZE + 1 else ceil_div L PAGE_SIZE) := by
  refine ⟨?_, ?_, ?_, ?_⟩
  · unfold calculate_page_count ceil_div PAGE_SIZE
    split <;> omega
  · obtain ⟨hl, hp⟩ := new_at_ok_shape ap A sz a h1
    rw [hl, hp]
  · obtain ⟨hl, hp, -⟩ := new_under_4gb_ok_shape ap sz qs a2 h2
    rw [hl, hp]
  · unfold kernel_pages_of ceil_div PAGE_SIZE
    split <;> omega

/-- C9 witness: the amended statement instantiated with a concrete
allocator and sizes. -/
theorem c9_page_count_witness :
    new_at (fun _ _ => some 8192) 4096 10 = .ok ⟨8192, 10, 1, none⟩ ∧
    new_under_4gb (fun _ _ => some 8192) 10 [] = .ok ⟨8192, 10, 1, none⟩ ∧
    (calculate_page_count 5 = ceil_div 5 PAGE_SIZE ∧
      Allocation.pages ⟨8192, 10, 1, none⟩ =
        calculate_page_count (Allocation.len ⟨8192, 10, 1, none⟩) ∧
      Allocation.pages ⟨8192, 10, 1, none⟩ =
        calculate_page_count (Allocation.len ⟨8192, 10, 1, none⟩) ∧
      kernel_pages_of 5 =
        (if 5 % PAGE_SIZE = 0 then ceil_div 5 PAGE_SIZE + 1 else ceil_div 5 PAGE_SIZE)) :=
  ⟨rfl, rfl,
    c9_page_count_amended 5 4096 10 (fun _ _ => some 8192) [] ⟨8192, 10, 1, none⟩
      ⟨8192, 10, 1, none⟩ rfl rfl⟩

/-- C8: `prepare_information` reports lower memory as the constant 640 KiB
and upper memory as `length / 1024` of the first merged entry whose base is
exactly `1024 * 1024` (so length 16777216 reports 16384); if no merged
entry begins at 1 MiB the `unwrap` aborts fatally (`none`). -/
theorem c8_memory_bounds (ds : List MemoryDescriptor) (e : MemoryEntry) :
    ((merge_entries ds).find? (fun x => x.base_address == 1024 * 1024) = some e →
      memory_bounds ds = some (640, e.length / 1024)) ∧
    ((merge_entries ds).find? (fun x => x.base_address == 1024 * 1024) = none →
      memory_bounds ds = none) ∧
    ((merge_entries ds).find? (fun x => x.base_address == 1024 * 1024) = some e →
      e.length = 16777216 →
      memory_bounds ds = some (640, 16384)) := by
  refine ⟨?_, ?_, ?_⟩
  · intro h
    unfold memory_bounds
    rw [h]
    rfl
  · intro h
    unfold memory_bounds
    rw [h]
    rfl
  · intro h hl
    have hb : memory_bounds ds = some (640, e.length / 1024) := by
      unfold memory_bounds
      rw [h]
      rfl
    rw [hb, hl]

/-- C8 witness: a single conventional-memory descriptor at 1 MiB of 4096
pages merges to one entry of 16777216 bytes and reports `(640, 16384)`; the
empty map has no entry at 1 MiB and aborts. -/
theorem c8_memory_bounds_witness :
    (merge_entries [⟨1048576, 4096, .CONVENTIONAL⟩]).find?
      (fun x => x.base_address == 1024 * 1024) = some ⟨1048576, 16777216, .Available⟩ ∧
    memory_bounds [⟨1048576, 4096, .CONVENTIONAL⟩] = some (640, 16384) ∧
    memory_bounds ([] : List MemoryDescriptor) = none :=
  ⟨by decide,
    (c8_memory_bounds [⟨1048576, 4096, .CONVENTIONAL⟩] ⟨1048576, 16777216, .Available⟩).2.2
      (by decide) rfl,
    (c8_memory_bounds [] ⟨0, 0, .Available⟩).2.1 (by decide)⟩

/-- C10: an address handed out by `allocate` translates (for any probe
length) to a view of the originally requested size; an address never
allocated translates to `none`; `deallocate` of the address succeeds
exactly once and a second `deallocate` (or one of any unknown non-null
address) panics, while `deallocate(0)` is a no-op. -/
theorem c10_allocator_adapter (m0 : MultibootAllocator) (ptr len probe q : Nat)
    (h1 : 0 < ptr) (h2 : ptr < U32_MAX) (hq : q ≠ ptr) (hq0 : q ≠ 0)
    (hqnone : m0.allocations q = none) :
    m0.allocate ptr len = some (afterAlloc m0 ptr len, ptr) ∧
    (afterAlloc m0 ptr len).paddr_to_slice ptr probe = some len ∧
    (afterAlloc m0 ptr len).paddr_to_slice q probe = none ∧
    (afterAlloc m0 ptr len).deallocate q = none ∧
    (afterAlloc m0 ptr len).deallocate ptr =
      some (afterDealloc (afterAlloc m0 ptr len) ptr) ∧
    (afterDealloc (afterAlloc m0 ptr len) ptr).deallocate ptr = none ∧
    (afterAlloc m0 ptr len).deallocate 0 = some (afterAlloc m0 ptr len) := by
  have hnle : ¬ U32_MAX ≤ ptr := not_le.mpr h2
  have hp0 : ptr ≠ 0 := by omega
  have hA : m0.allocate ptr len =
      some ({ allocations := fun a => if a = ptr then some len else m0.allocations a }, ptr) := by
    unfold MultibootAllocator.allocate
    rw [if_neg hnle, if_neg hp0]
  have hAA : afterAlloc m0 ptr len =
      { allocations := fun a => if a = ptr then some len else m0.allocations a } := by
    unfold afterAlloc
    rw [hA]
  have hD : (afterAlloc m0 ptr len).deallocate ptr =
      some { allocations := fun a => if a = ptr then none else
        (afterAlloc m0 ptr len).allocations a } := by
    unfold MultibootAllocator.deallocate
    rw [if_neg hp0, hAA]
    simp
  have hAD : afterDealloc (afterAlloc m0 ptr len) ptr =
      { allocations := fun a => if a = ptr then none else
        (afterAlloc m0 ptr len).allocations a } := by
    unfold afterDealloc
    rw [hD]
    rfl
  refine ⟨?_, ?_, ?_, ?_, ?_, ?_, ?_⟩
  · rw [hA, hAA]
  · rw [hAA]
    unfold MultibootAllocator.paddr_to_slice
    simp
  · rw [hAA]
    unfold MultibootAllocator.paddr_to_slice
    simp only [if_neg hq]
    exact hqnone
  · unfold MultibootAllocator.deallocate
    rw [if_neg hq0, hAA]
    simp only [if_neg hq]
    rw [hqnone]
  · rw [hD, hAD]
  · rw [hAD]
    unfold MultibootAllocator.deallocate
    rw [if_neg hp0]
    simp
  · unfold MultibootAllocator.deallocate
    rw [if_pos rfl]

/-- C10 witness: the adapter behaviour at a concrete fresh address. -/
theorem c10_allocator_adapter_witness :
    (0 : Nat) < 4096 ∧ (4096 : Nat) < U32_MAX ∧
    MultibootAllocator.new.allocate 4096 10 =
      some (afterAlloc MultibootAllocator.new 4096 10, 4096) ∧
    (afterAlloc MultibootAllocator.new 4096 10).paddr_to_slice 4096 999 = some 10 ∧
    (afterAlloc MultibootAllocator.new 4096 10).paddr_to_slice 8192 999 = none ∧
    (afterAlloc MultibootAllocator.new 4096 10).deallocate 8192 = none ∧
    (afterAlloc MultibootAllocator.new 4096 10).deallocate 4096 =
      some (afterDealloc (afterAlloc MultibootAllocator.new 4096 10) 4096) ∧
    (afterDealloc (afterAlloc MultibootAllocator.new 4096 10) 4096).deallocate 4096 = none ∧
    (afterAlloc MultibootAllocator.new 4096 10).deallocate 0 =
      some (afterAlloc MultibootAllocator.new 4096 10) := by
  refine ⟨by decide, by decide, ?_⟩
  have h := c10_allocator_adapter MultibootAllocator.new 4096 10 999 8192
    (by decide) (by decide) (by decide) (by decide) rfl
  exact ⟨h.1, h.2.1, h.2.2.1, h.2.2.2.1, h.2.2.2.2.1, h.2.2.2.2.2.1, h.2.2.2.2.2.2⟩

/-- C1 counterexample: a memory map in which two `Available` entries both
fully contain the target range.  The relocation does abort fatally (the
`assert!` after the copy fails) and the record is unchanged, but the byte
copy has already been performed at that point, contradicting the claim
that no byte copy happens when more than one region matches. -/
theorem c1_relocation_counterexample :
    (([⟨0, 65536, .Available⟩, ⟨0, 65536, .Available⟩] : List MemoryEntry).filter
      (fun e => entry_contains_range e 8192 16)).length = 2 ∧
    move_to_where_it_should_be ⟨40960, 16, 1, some 8192⟩
      [⟨0, 65536, .Available⟩, ⟨0, 65536, .Available⟩] =
      .fatal ⟨40960, 16, 1, some 8192⟩ true := by decide

/-- C1 (amended): with a pending target, relocation aborts fatally with the
record unchanged and no byte copy when no region contains the target range
or when the first containing region is not `Available`; when the first
containing region is `Available` but a further containing region exists it
still aborts fatally with the record unchanged, but the byte copy has
already been performed; when exactly one containing region exists and it is
`Available`, the copy is performed and the record is retargeted. -/
theorem c1_relocation_amended (alloc : Allocation) (memory_map : List MemoryEntry)
    (a : Nat) (h : alloc.should_be_at = some a) :
    (memory_map.filter (fun e => entry_contains_range e a alloc.len) = [] →
      move_to_where_it_should_be alloc memory_map = .fatal alloc false) ∧
    ((memory_map.filter (fun e => entry_contains_range e a alloc.len)) ≠ [] →
      ((memory_map.filter (fun e => entry_contains_range e a alloc.len)).headD
        ⟨0, 0, .Reserved⟩).memory_type ≠ .Available →
      move_to_where_it_should_be alloc memory_map = .fatal alloc false) ∧
    (((memory_map.filter (fun e => entry_contains_range e a alloc.len)).headD
        ⟨0, 0, .Reserved⟩).memory_type = .Available →
      2 ≤ (memory_map.filter (fun e => entry_contains_range e a alloc.len)).length →
      move_to_where_it_should_be alloc memory_map = .fatal alloc true) ∧
    (((memory_map.filter (fun e => entry_contains_range e a alloc.len)).headD
        ⟨0, 0, .Reserved⟩).memory_type = .Available →
      (memory_map.filter (fun e => entry_contains_range e a alloc.len)).length = 1 →
      move_to_where_it_should_be alloc memory_map =
        .ok { alloc with ptr := a, should_be_at := none } true) := by
  have hm : move_to_where_it_should_be alloc memory_map =
      match memory_map.filter (fun e => entry_contains_range e a alloc.len) with
      | [] => .fatal alloc false
      | e :: rest =>
        match e.memory_type with
        | .Available =>
          match rest with
          | [] => .ok { alloc with ptr := a, should_be_at := none } true
          | _ :: _ => .fatal alloc true
        | _ => .fatal alloc false := by
    unfold move_to_where_it_should_be
    rw [h]
  set fl := memory_map.filter (fun e => entry_contains_range e a alloc.len) with hfl
  clear_value fl
  clear hfl
  cases fl with
  | nil =>
    refine ⟨fun _ => hm, fun hne _ => absurd rfl hne, ?_, ?_⟩
    · intro _ hlen
      simp at hlen
    · intro _ hlen
      simp at hlen
  | cons e rest =>
    obtain ⟨eb, el, et⟩ := e
    refine ⟨?_, ?_, ?_, ?_⟩
    · intro hemp
      cases hemp
    · intro _ htype
      simp only [List.headD_cons] at htype
      cases et
      · exact absurd rfl htype
      all_goals exact hm
    · intro htype hlen
      simp only [List.headD_cons] at htype
      cases rest with
      | nil => simp at hlen
      | cons f rest2 =>
        cases et
        case Available => exact hm
        all_goals simp at htype
    · intro htype hlen
      simp only [List.headD_cons] at htype
      cases rest with
      | nil =>
        cases et
        case Available => exact hm
        all_goals simp at htype
      | cons f rest2 => simp at hlen

/-- C1 witness: the amended statement at a concrete single-match map. -/
theorem c1_relocation_witness :
    (([⟨0, 65536, .Available⟩] : List MemoryEntry).filter
      (fun e => entry_contains_range e 8192 16)).length = 1 ∧
    move_to_where_it_should_be ⟨40960, 16, 1, some 8192⟩ [⟨0, 65536, .Available⟩] =
      .ok ⟨8192, 16, 1, none⟩ true :=
  ⟨by decide,
    (c1_relocation_amended ⟨40960, 16, 1, some 8192⟩ [⟨0, 65536, .Available⟩] 8192
      rfl).2.2.2 (by decide) (by decide)⟩

/-- C3 counterexample: a kernel whose parsed header selects the ELF address
scheme makes `prepare_entry` hit the `todo!` and abort fatally; it does not
return an error result to its caller.  (`PrepareResult.fatal` is the
`todo!`/panic outcome, distinct from every `PrepareResult.err`.) -/
theorem c3_elf_counterexample :
    prepare_entry (fun _ => .ok [1]) (fun _ => some { addresses := .Elf })
      (fun _ _ => some 4096) { image := "k", name := none, modules := none, quirks := [] } =
      (.fatal, []) := by
  decide

/-- C3 (amended): for every kernel image that reads and parses
successfully and whose parsed header selects the ELF address scheme,
`prepare_entry` aborts fatally (the unimplemented `todo!`) instead of
returning an error result. -/
theorem c3_elf_amended (read_file : String → Except Status (List Nat))
    (parse : List Nat → Option Metadata) (alloc_pages : PageAllocator)
    (entry : Entry) (kernel_vec : List Nat) (metadata : Metadata)
    (hrf : read_file entry.image = .ok kernel_vec)
    (hp : parse kernel_vec = some metadata)
    (he : metadata.addresses = .Elf) :
    prepare_entry read_file parse alloc_pages entry = (.fatal, []) := by
  simp only [prepare_entry, hrf, hp, he]

/-- C3 witness: the amended statement at a concrete ELF kernel. -/
theorem c3_elf_witness :
    prepare_entry (fun _ => .ok [2]) (fun _ => some { addresses := .Elf })
      (fun _ _ => none) { image := "k2", name := none, modules := none, quirks := [] } =
      (.fatal, []) :=
  c3_elf_amended (fun _ => .ok [2]) (fun _ => some { addresses := .Elf })
    (fun _ _ => none) { image := "k2", name := none, modules := none, quirks := [] }
    [2] { addresses := .Elf } rfl rfl rfl

/-- C4 counterexample: when the pinned allocation of the kernel region
fails, `prepare_entry` returns `Status::LOAD_ERROR` — preparation does fail
with an error — and the empty event trace shows that no fallback
allocation was performed. -/
theorem c4_fallback_counterexample :
    prepare_entry (fun _ => .ok [1])
      (fun _ => some { addresses := .Multiboot ⟨1048576, 1048676, 0, 0, 1048576⟩ })
      (fun _ _ => none) { image := "k", name := none, modules := none, quirks := [] } =
      (.err .LOAD_ERROR, []) := by
  decide

/-- C4 (amended): when the pinned allocation at the kernel's load address
fails, `prepare_entry` fails with `LOAD_ERROR` and performs no fallback
allocation; the automatic fallback exists only in `Allocation::new_at`
(which `prepare_entry` does not use): there, a failed pinned allocation
falls back to `new_under_4gb` with an *empty* quirk set — so the ceiling is
always `u32::MAX` (4 GiB) and the 200 MiB quirk ceiling is never
consulted — recording the originally requested address as `should_be_at`. -/
theorem c4_fallback_amended (read_file : String → Except Status (List Nat))
    (parse : List Nat → Option Metadata) (alloc_pages : PageAllocator)
    (entry : Entry) (kernel_vec : List Nat) (metadata : Metadata)
    (addr : MultibootAddresses) (A sz p : Nat)
    (hrf : read_file entry.image = .ok kernel_vec)
    (hp : parse kernel_vec = some metadata)
    (hmb : metadata.addresses = .Multiboot addr)
    (halloc : alloc_pages (.address addr.load_address)
      (kernel_pages_of (kernel_length_of addr)) = none)
    (hpin : alloc_pages (.address A) (calculate_page_count sz) = none)
    (hfb : alloc_pages (.maxAddress U32_MAX) (calculate_page_count sz) = some p) :
    prepare_entry read_file parse alloc_pages entry = (.err .LOAD_ERROR, []) ∧
    new_at alloc_pages A sz =
      .ok { ptr := p, len := sz, pages := calculate_page_count sz, should_be_at := some A } := by
  constructor
  · simp only [prepare_entry, hrf, hp, hmb, halloc]
  · simp only [new_at, new_under_4gb, hpin, List.contains, List.elem_nil,
      Bool.false_eq_true, if_false, hfb]

/-- C4 witness: the amended statement at a concrete allocator that refuses
pinned requests and satisfies below-ceiling requests. -/
theorem c4_fallback_witness :
    prepare_entry (fun _ => .ok [3])
      (fun _ => some { addresses := .Multiboot ⟨1048576, 1048676, 0, 0, 1048576⟩ })
      (fun t _ => match t with | .address _ => none | .maxAddress _ => some 4096)
      { image := "k3", name := none, modules := none, quirks := [] } =
      (.err .LOAD_ERROR, []) ∧
    new_at (fun t _ => match t with | .address _ => none | .maxAddress _ => some 4096)
      8192 16 = .ok { ptr := 4096, len := 16, pages := 1, should_be_at := some 8192 } :=
  c4_fallback_amended (fun _ => .ok [3])
    (fun _ => some { addresses := .Multiboot ⟨1048576, 1048676, 0, 0, 1048576⟩ })
    (fun t _ => match t with | .address _ => none | .maxAddress _ => some 4096)
    { image := "k3", name := none, modules := none, quirks := [] }
    [3] { addresses := .Multiboot ⟨1048576, 1048676, 0, 0, 1048576⟩ }
    ⟨1048576, 1048676, 0, 0, 1048576⟩ 8192 16 4096 rfl rfl rfl rfl rfl rfl

/-- C2: evaluation of `prepare_entry` at an input where the kernel loads,
parses and is allocated (at pointer 1048576, 1 page), but the second of
three modules fails to read.  The result is the propagated error, and the
event trace records the kernel page allocation and *no* `freePages` event:
the kernel pages are leaked, not released, because no `PreparedEntry` was
constructed and `prepare_entry` itself never calls `free_pages`. -/
theorem c2_module_failure_leak :
    prepare_entry
      (fun s => if s = "m2" then .error (.other 14) else .ok [7])
      (fun _ => some { addresses := .Multiboot ⟨1048576, 1048676, 0, 0, 1048576⟩ })
      (fun _ _ => some 1048576)
      { image := "k", name := none, modules := some ["m1", "m2", "m3"], quirks := [] } =
      (.err (.other 14), [.allocPages 1048576 1]) := by
  decide

/-- C5: if the pinned allocation at `A` fails and the fallback succeeds at
`p ≠ A`, `new_at` yields an allocation with `should_be_at = some A` and base
`p ≠ A`; after a successful relocation (a single containing `Available`
region in the map) the allocation has `should_be_at = none` and base `A`. -/
theorem c5_fallback_then_relocate (alloc_pages : PageAllocator) (A sz p : Nat)
    (mmap : List MemoryEntry) (e : MemoryEntry)
    (hpin : alloc_pages (.address A) (calculate_page_count sz) = none)
    (hfb : alloc_pages (.maxAddress U32_MAX) (calculate_page_count sz) = some p)
    (hne : p ≠ A)
    (hf : mmap.filter (fun x => entry_contains_range x A sz) = [e])
    (he : e.memory_type = .Available) :
    new_at alloc_pages A sz =
      .ok { ptr := p, len := sz, pages := calculate_page_count sz, should_be_at := some A } ∧
    p ≠ A ∧
    move_to_where_it_should_be
      { ptr := p, len := sz, pages := calculate_page_count sz, should_be_at := some A } mmap =
      .ok { ptr := A, len := sz, pages := calculate_page_count sz, should_be_at := none }
        true := by
  refine ⟨?_, hne, ?_⟩
  · simp only [new_at, new_under_4gb, hpin, List.contains, List.elem_nil,
      Bool.false_eq_true, if_false, hfb]
  · simp only [move_to_where_it_should_be, hf, he]

/-- C5 witness: the scenario at a concrete allocator and memory map. -/
theorem c5_fallback_then_relocate_witness :
    new_at (fun t _ => match t with | .address _ => none | .maxAddress _ => some 4096)
      8192 16 = .ok { ptr := 4096, len := 16, pages := 1, should_be_at := some 8192 } ∧
    (4096 : Nat) ≠ 8192 ∧
    move_to_where_it_should_be { ptr := 4096, len := 16, pages := 1, should_be_at := some 8192 }
      [⟨0, 65536, .Available⟩] =
      .ok { ptr := 8192, len := 16, pages := 1, should_be_at := none } true :=
  c5_fallback_then_relocate
    (fun t _ => match t with | .address _ => none | .maxAddress _ => some 4096)
    8192 16 4096 [⟨0, 65536, .Available⟩] ⟨0, 65536, .Available⟩
    rfl rfl (by decide) (by decide) rfl

/-- The segment-copy iterator of `prepare_entry`, generalized over the skip
offset `o`, the take limit `t` and the destination length `L`
(`copy_segment vec addr` is this with `o = load_offset`,
`t = load_end - load_address`, `L = kernel_length`). -/
def segment_bytes (vec : List Nat) (o t L : Nat) : List Nat :=
  (List.range L).map (fun i => if i < t ∧ o + i < vec.length then vec.getD (o + i) 0 else 0)

/-- `copy_segment` is `segment_bytes` at the address fields. -/
theorem copy_segment_eq_segment_bytes (vec : List Nat) (addr : MultibootAddresses) :
    copy_segment vec addr =
      segment_bytes vec addr.load_offset
        (addr.load_end_address - addr.load_address) (kernel_length_of addr) := rfl

/-- The first `t` destination bytes are the file bytes `[o, o + t)`. -/
theorem segment_bytes_take (vec : List Nat) (o t L : Nat) (ht : t ≤ L)
    (h3 : o + t ≤ vec.length) :
    (segment_bytes vec o t L).take t = (vec.drop o).take t := by
  apply List.ext_getElem
  · simp [segment_bytes]
    omega
  · intro i h1 h2
    simp only [segment_bytes, List.getElem_take, List.getElem_map, List.getElem_range,
      List.getElem_drop]
    have hi : i < t := by
      simp [segment_bytes] at h1
      omega
    rw [if_pos ⟨hi, by omega⟩]
    rw [List.getD_eq_getElem]

/-- Every destination byte past the take limit is zero. -/
theorem segment_bytes_drop (vec : List Nat) (o t L : Nat) :
    (segment_bytes vec o t L).drop t = List.replicate (L - t) 0 := by
  apply List.ext_getElem
  · simp [segment_bytes]
  · intro i h1 h2
    simp only [segment_bytes, List.getElem_drop, List.getElem_map, List.getElem_range,
      List.getElem_replicate]
    rw [if_neg]
    omega

/-- The copy never reads a file byte at or past `o + t`. -/
theorem segment_bytes_prefix (vec : List Nat) (o t L : Nat) :
    segment_bytes (vec.take (o + t)) o t L = segment_bytes vec o t L := by
  apply List.ext_getElem
  · simp [segment_bytes]
  · intro i h1 h2
    simp only [segment_bytes, List.getElem_map, List.getElem_range]
    by_cases hi : i < t
    · have hlen : (vec.take (o + t)).length = min (o + t) vec.length := List.length_take ..
      by_cases hv : o + i < vec.length
      · rw [if_pos ⟨hi, by omega⟩, if_pos ⟨hi, hv⟩]
        rw [List.getD_eq_getElem _ _ (by omega), List.getD_eq_getElem _ _ hv]
        simp [List.getElem_take]
      · rw [if_neg (by omega), if_neg (by omega)]
    · rw [if_neg (by omega), if_neg (by omega)]

/-- C6: the destination buffer has `kernel_length` bytes (`bss_end -
load_address` when a bss end is present, else `load_end - load_address`);
its first `load_end - load_address` bytes are the file bytes starting at
`load_offset`; the rest is zero; and the result only depends on the file
bytes below `load_offset + (load_end - load_address)`. -/
theorem c6_segment_copy (vec : List Nat) (addr : MultibootAddresses)
    (h1 : addr.load_address ≤ addr.load_end_address)
    (h2 : addr.bss_end_address = 0 ∨ addr.load_end_address ≤ addr.bss_end_address)
    (h3 : addr.load_offset + (addr.load_end_address - addr.load_address) ≤ vec.length) :
    (copy_segment vec addr).length = kernel_length_of addr ∧
    (copy_segment vec addr).take (addr.load_end_address - addr.load_address) =
      (vec.drop addr.load_offset).take (addr.load_end_address - addr.load_address) ∧
    (copy_segment vec addr).drop (addr.load_end_address - addr.load_address) =
      List.replicate
        (kernel_length_of addr - (addr.load_end_address - addr.load_address)) 0 ∧
    copy_segment (vec.take (addr.load_offset + (addr.load_end_address - addr.load_address)))
      addr = copy_segment vec addr := by
  have ht : addr.load_end_address - addr.load_address ≤ kernel_length_of addr := by
    rcases h2 with h2 | h2 <;> (unfold kernel_length_of; split <;> omega)
  refine ⟨?_, ?_, ?_, ?_⟩
  · simp [copy_segment]
  · rw [copy_segment_eq_segment_bytes]
    exact segment_bytes_take vec addr.load_offset
      (addr.load_end_address - addr.load_address) (kernel_length_of addr) ht h3
  · rw [copy_segment_eq_segment_bytes]
    exact segment_bytes_drop vec addr.load_offset
      (addr.load_end_address - addr.load_address) (kernel_length_of addr)
  · rw [copy_segment_eq_segment_bytes, copy_segment_eq_segment_bytes]
    exact segment_bytes_prefix vec addr.load_offset
      (addr.load_end_address - addr.load_address) (kernel_length_of addr)

/-- C6 witness: the spec's synthetic image — load 100 file bytes from
offset 5, 50 bytes of bss — at a concrete 120-byte file. -/
theorem c6_segment_copy_witness :
    (copy_segment (List.range 120) ⟨1000, 1100, 1150, 5, 1000⟩).length =
      kernel_length_of ⟨1000, 1100, 1150, 5, 1000⟩ ∧
    (copy_segment (List.range 120) ⟨1000, 1100, 1150, 5, 1000⟩).take 100 =
      ((List.range 120).drop 5).take 100 ∧
    (copy_segment (List.range 120) ⟨1000, 1100, 1150, 5, 1000⟩).drop 100 =
      List.replicate 50 0 ∧
    copy_segment ((List.range 120).take 105) ⟨1000, 1100, 1150, 5, 1000⟩ =
      copy_segment (List.range 120) ⟨1000, 1100, 1150, 5, 1000⟩ :=
  c6_segment_copy (List.range 120) ⟨1000, 1100, 1150, 5, 1000⟩ (by decide)
    (Or.inr (by decide)) (by decide)

/-- C7: the merge pass appends a new output entry exactly when the incoming
(translated) entry differs in type from the running last entry or is not
base-contiguous with it, and otherwise extends the last entry's length;
consequently two adjacent same-type input regions coalesce into one entry
of combined length, while adjacent regions of different type and
non-adjacent regions of the same type stay separate. -/
theorem c7_merge_pass (ds : List MemoryDescriptor) (d : MemoryDescriptor)
    (acc : List MemoryEntry) (last : MemoryEntry) (d1 d2 : MemoryDescriptor)
    (hm : merge_entries ds = acc ++ [last]) :
    (merge_entries (ds ++ [d]) =
      (if (descriptor_to_entry d).memory_type = last.memory_type ∧
          (descriptor_to_entry d).base_address = last.base_address + last.length then
        acc ++ [{ base_address := last.base_address
                  length := last.length + (descriptor_to_entry d).length
                  memory_type := last.memory_type }]
      else
        acc ++ [last, descriptor_to_entry d])) ∧
    (translate_memory_type d1.ty = translate_memory_type d2.ty →
      d2.phys_start = d1.phys_start + d1.page_count * PAGE_SIZE →
      merge_entries [d1, d2] =
        [{ base_address := d1.phys_start
           length := d1.page_count * PAGE_SIZE + d2.page_count * PAGE_SIZE
           memory_type := translate_memory_type d1.ty }]) ∧
    (translate_memory_type d1.ty ≠ translate_memory_type d2.ty →
      merge_entries [d1, d2] = [descriptor_to_entry d1, descriptor_to_entry d2]) ∧
    (translate_memory_type d1.ty = translate_memory_type d2.ty →
      d2.phys_start ≠ d1.phys_start + d1.page_count * PAGE_SIZE →
      merge_entries [d1, d2] = [descriptor_to_entry d1, descriptor_to_entry d2]) := by
  refine ⟨?_, ?_, ?_, ?_⟩
  · have hr : ds.foldl (fun acc d => merge_step acc (descriptor_to_entry d)) [] =
        last :: acc.reverse := by
      have := congrArg List.reverse hm
      simpa [merge_entries] using this
    unfold merge_entries
    rw [List.foldl_append, hr]
    simp only [List.foldl_cons, List.foldl_nil, merge_step]
    by_cases hcond : (descriptor_to_entry d).memory_type = last.memory_type ∧
        (descriptor_to_entry d).base_address = last.base_address + last.length
    · rw [if_pos hcond, if_pos hcond]
      simp
    · rw [if_neg hcond, if_neg hcond]
      simp
  · intro ht hb
    simp only [merge_entries, List.foldl_cons, List.foldl_nil, merge_step,
      descriptor_to_entry]
    rw [if_pos ⟨ht.symm, hb⟩]
    simp
  · intro ht
    simp only [merge_entries, List.foldl_cons, List.foldl_nil, merge_step,
      descriptor_to_entry]
    rw [if_neg (fun hc => ht hc.1.symm)]
    simp
  · intro ht hb
    simp only [merge_entries, List.foldl_cons, List.foldl_nil, merge_step,
      descriptor_to_entry]
    rw [if_neg (fun hc => hb hc.2)]
    simp

/-- C7 witness: combinations of two conventional-memory descriptors —
adjacent same-type regions coalesce, a differing type or a hole keeps them
separate — plus the general step at a concrete one-entry prefix. -/
theorem c7_merge_pass_witness :
    merge_entries [⟨0, 2, .CONVENTIONAL⟩, ⟨8192, 1, .CONVENTIONAL⟩] =
      [⟨0, 12288, .Available⟩] ∧
    merge_entries [⟨0, 2, .CONVENTIONAL⟩, ⟨8192, 1, .RUNTIME_SERVICES_CODE⟩] =
      [⟨0, 8192, .Available⟩, ⟨8192, 4096, .Reserved⟩] ∧
    merge_entries [⟨0, 2, .CONVENTIONAL⟩, ⟨20480, 1, .CONVENTIONAL⟩] =
      [⟨0, 8192, .Available⟩, ⟨20480, 4096, .Available⟩] := by
  refine ⟨?_, ?_, ?_⟩
  · exact (c7_merge_pass [⟨0, 2, .CONVENTIONAL⟩] ⟨8192, 1, .CONVENTIONAL⟩ []
      ⟨0, 8192, .Available⟩ ⟨0, 2, .CONVENTIONAL⟩ ⟨8192, 1, .CONVENTIONAL⟩
      (by decide)).2.1 rfl (by decide)
  · exact (c7_merge_pass [⟨0, 2, .CONVENTIONAL⟩] ⟨8192, 1, .CONVENTIONAL⟩ []
      ⟨0, 8192, .Available⟩ ⟨0, 2, .CONVENTIONAL⟩ ⟨8192, 1, .RUNTIME_SERVICES_CODE⟩
      (by decide)).2.2.1 (by decide)
  · exact (c7_merge_pass [⟨0, 2, .CONVENTIONAL⟩] ⟨8192, 1, .CONVENTIONAL⟩ []
      ⟨0, 8192, .Available⟩ ⟨0, 2, .CONVENTIONAL⟩ ⟨20480, 1, .CONVENTIONAL⟩
      (by decide)).2.2.2 rfl (by decide)
